import Mathlib

set_option maxRecDepth 20000
set_option maxHeartbeats 4000000

/-!
A verification development for the Wordpress client library
(python3/crifanLib/thirdParty/crifanWordpress.py).  Each Python function
relevant to the specified behavior is embedded as an executable Lean
definition; theorems below settle the specification claims against them.

Modelling conventions:
- Python strings are Lean strings.  Character classes of the regular
  expressions follow the ASCII fragment of Python semantics: the class
  backslash-w is letters, digits and underscore; backslash-s is the six
  ASCII whitespace characters.  The inputs exercised by the specification
  are ASCII, where the two semantics agree.
- The regex substitutions of generateSlug are embedded as left-to-right
  scanners with the exact non-overlapping, leftmost, greedy semantics of
  Python re.sub.  Each scanner carries a fuel argument that is
  initialised with the length of the scanned list; every step consumes at
  least one input character while fuel decreases by exactly one, so the
  fuel never runs out and the zero-fuel branch is unreachable.
- HTTP I/O is an oracle function passed as an argument; the requests
  Response object is a record of status code, raw body text, the
  transport success flag (Response.ok) and the parse result of
  Response.json(), where the parse result none models the
  JSONDecodeError raised on a body that is not valid JSON.
- A Python function that can raise is embedded with result type Except;
  an error value models an exception escaping the function.
-/

namespace CrifanWordpress

/-- Taxonomy record returned by the remote search.  Only the fields the
embedded functions actually read are kept: eachTaxonomy["name"] in
findSameNameTaxonomy and curTaxonomy["id"] in getTaxonomyIdList. -/
structure TaxRecord where
  id : Nat
  name : String
deriving DecidableEq, Repr

/-- Python str.lower in the ASCII fragment, written on the character
list so that it evaluates inside the kernel. -/
def strLower (s : String) : String := String.mk (s.data.map Char.toLower)

/-- Scan loop of findSameNameTaxonomy (crifanWordpress.py lines 809-816):
walk the candidate list; on the first exact name match stop (the Python
break) and return it as the first component with the accumulator
untouched; otherwise keep overwriting the most recent case-insensitive
match, threaded as lowerAcc (Python lowercaseSameNameTaxonomy, initially
None). -/
def findSameNameLoop (name lowerName : String) (lowerAcc : Option TaxRecord) :
    List TaxRecord → Option TaxRecord × Option TaxRecord
  | [] => (none, lowerAcc)
  | r :: rest =>
    if r.name == name then (some r, lowerAcc)
    else if strLower r.name == lowerName then findSameNameLoop name lowerName (some r) rest
    else findSameNameLoop name lowerName lowerAcc rest

/-- findSameNameTaxonomy (lines 792-823): run the scan with lowerName =
name.lower(), then prefer the exact match, else the recorded
case-insensitive match, else none (lines 818-823). -/
def findSameNameTaxonomy (name : String) (taxonomyLit : List TaxRecord) : Option TaxRecord :=
  let p := findSameNameLoop name (strLower name) none taxonomyLit
  match p.1 with
  | some sameNameTaxonomy => some sameNameTaxonomy
  | none => p.2

/-! ### generateSlug (lines 461-523) -/

/-- The apostrophe character U+0027, as a named constant. -/
def apostropheChar : Char := Char.ofNat 39

/-- Control character U+0001.  The replacement string of the contraction
substitution at line 486 is written in a non-raw Python string literal,
so its backslash-1 is the octal escape for this character, not a
backreference. -/
def ctrlOneChar : Char := Char.ofNat 1

/-- Control character U+0002, the second octal escape of the replacement
string at line 486. -/
def ctrlTwoChar : Char := Char.ofNat 2

/-- ASCII fragment of the regex class backslash-w: letters, digits and
underscore. -/
def isWordChar (c : Char) : Bool := c.isAlphanum || c == '_'

/-- ASCII fragment of the regex class backslash-s: space, tab, newline,
vertical tab, form feed, carriage return. -/
def isSpaceChar (c : Char) : Bool :=
  c == ' ' || c == '\t' || c == '\n' || c == Char.ofNat 11 || c == Char.ofNat 12 || c == '\r'

/-- Scanner for line 486, the substitution of pattern
word-run, apostrophe, word-run with the two control characters that the
broken replacement string denotes.  At a word character the greedy first
group is the maximal word run; the match requires an apostrophe and at
least one further word character right after it, and consumes the
maximal second run; on failure the scanner advances one character, as
Python re.sub does.  The first argument is fuel, see the header. -/
def subContractionGo : Nat → List Char → List Char
  | _, [] => []
  | 0, s => s
  | fuel + 1, c :: rest =>
    if isWordChar c then
      match rest.dropWhile isWordChar with
      | q :: c2 :: rest2 =>
        if q = apostropheChar ∧ isWordChar c2 then
          ctrlOneChar :: ctrlTwoChar :: subContractionGo fuel (rest2.dropWhile isWordChar)
        else c :: subContractionGo fuel rest
      | _ => c :: subContractionGo fuel rest
    else c :: subContractionGo fuel rest

/-- Entry point of the contraction substitution (line 486). -/
def subContraction (s : List Char) : List Char := subContractionGo s.length s

/-- Scanner for line 499: whitespace-run, the word w, whitespace-run is
replaced by one space.  At a space the greedy leading run is maximal, w
must follow it literally, and at least one space must follow w; the
trailing run is consumed greedily and scanning resumes after it.  The
string is already lower-cased, so the IGNORECASE flag of the source has
no effect in the ASCII fragment. -/
def subInsideGo (w : List Char) : Nat → List Char → List Char
  | _, [] => []
  | 0, s => s
  | fuel + 1, c :: rest =>
    if isSpaceChar c then
      if w.isPrefixOf (rest.dropWhile isSpaceChar) then
        match (rest.dropWhile isSpaceChar).drop w.length with
        | c2 :: rest2 =>
          if isSpaceChar c2 then ' ' :: subInsideGo w fuel (rest2.dropWhile isSpaceChar)
          else c :: subInsideGo w fuel rest
        | [] => c :: subInsideGo w fuel rest
      else c :: subInsideGo w fuel rest
    else c :: subInsideGo w fuel rest

/-- Entry point for the in-word-list substitution at line 499. -/
def subInside (w s : List Char) : List Char := subInsideGo w s.length s

/-- Line 502: the word w at the very start of the string followed by at
least one space is removed together with the greedy space run.  The
anchor matches only at position zero, so one replacement at most. -/
def subStart (w s : List Char) : List Char :=
  if w.isPrefixOf s then
    match s.drop w.length with
    | c :: rest => if isSpaceChar c then rest.dropWhile isSpaceChar else s
    | [] => s
  else s

/-- Scanner for line 507: a whitespace run followed by the word w at the
very end of the string is removed.  A match at a space requires the rest
after the maximal space run to be exactly w; the end anchor is modelled
as end of input. -/
def subEndGo (w : List Char) : Nat → List Char → List Char
  | _, [] => []
  | 0, s => s
  | fuel + 1, c :: rest =>
    if isSpaceChar c then
      if rest.dropWhile isSpaceChar = w then []
      else c :: subEndGo w fuel rest
    else c :: subEndGo w fuel rest

/-- Entry point for the end-of-string substitution at line 507. -/
def subEnd (w s : List Char) : List Char := subEndGo w s.length s

/-- Line 510: every character that is not in the class backslash-w is
replaced by an underscore. -/
def subNonWord (s : List Char) : List Char :=
  s.map (fun c => if isWordChar c then c else '_')

/-- Line 513: runs of underscores collapse to a single underscore,
expressed as removal of the first of any two adjacent underscores. -/
def collapseUnderscores : List Char → List Char
  | [] => []
  | [c] => [c]
  | c1 :: c2 :: rest =>
    if c1 = '_' ∧ c2 = '_' then collapseUnderscores (c2 :: rest)
    else c1 :: collapseUnderscores (c2 :: rest)

/-- Specification-side predicate: some two adjacent characters are both
underscores. -/
def hasDoubleUnderscore : List Char → Bool
  | c1 :: c2 :: rest => (c1 == '_' && c2 == '_') || hasDoubleUnderscore (c2 :: rest)
  | _ => false

/-- The stop-word list of line 496, in source order. -/
def removeWordList : List String := ["to", "the", "a", "are", "is", "and", "of", "in", "at"]

/-- One iteration of the loop at lines 497-507: the inside, start and end
substitutions for one stop word, in that order. -/
def applyRemoveWord (s : List Char) (w : String) : List Char :=
  subEnd w.data (subStart w.data (subInside w.data s))

/-- generateSlug (lines 461-523): empty input returns immediately
(line 475); otherwise lower-case (line 478), contraction substitution
(line 486), the stop-word loop (lines 496-507), non-word characters to
underscores (line 510), collapse underscores (line 513). -/
def generateSlug (enTitle : String) : String :=
  if enTitle = "" then enTitle
  else
    let slug := (strLower enTitle).data
    let slug := subContraction slug
    let slug := removeWordList.foldl applyRemoveWord slug
    let slug := subNonWord slug
    let slug := collapseUnderscores slug
    String.mk slug

/-! ### processCommonResponse (lines 525-790) -/

/-- Result of parsing a JSON body, mirroring the values Python json
parsing can produce. -/
inductive JsonVal where
  | obj (fields : List (String × JsonVal))
  | arr (elems : List JsonVal)
  | str (s : String)
  | num (n : Int)
  | boolean (b : Bool)
  | null

/-- The requests Response object as consumed by processCommonResponse:
status code, raw body text, the transport success flag Response.ok, and
the result of Response.json(), where none models the decode error raised
on a body that is not valid JSON. -/
structure Resp where
  status_code : Nat
  text : String
  ok : Bool
  jsonBody : Option JsonVal

/-- Dictionary key lookup, Python d[k] for a present key and the
membership test k in d. -/
def getKey (fields : List (String × JsonVal)) (k : String) : Option JsonVal :=
  match fields with
  | [] => none
  | (k2, v) :: rest => if k2 == k then some v else getKey rest k

/-- Python d[k] where a missing key raises KeyError. -/
def keyErr (o : Option JsonVal) : Except String JsonVal :=
  match o with
  | some v => Except.ok v
  | none => Except.error "KeyError"

/-- Python v[k] on an arbitrary JSON value: KeyError when the key is
missing from an object, TypeError when v is not an object. -/
def getItem (v : JsonVal) (k : String) : Except String JsonVal :=
  match v with
  | JsonVal.obj fields => keyErr (getKey fields k)
  | _ => Except.error "TypeError"

/-- Python comparison of a JSON value with a string literal. -/
def jsonEqStr (v : JsonVal) (s : String) : Bool :=
  match v with
  | JsonVal.str t => t == s
  | _ => false

/-- processCommonResponse (lines 525-790).  On resp.ok: parse the body
(line 546; a parse failure raises, modelled as an error result escaping
the function); a dict with an id key is condensed to id, slug, link
(lines 737-746), extended with url and title for attachment or post
types (lines 748-755), with name and description for taxonomy responses
and parent for categories (lines 757-766); a dict without id is returned
unchanged (line 768); a list is returned unchanged (lines 771-773); any
other JSON value falls through to the initial value pair
False, empty dict of line 543.  On transport failure: False with the
two-key dict errCode, errMsg of lines 781-784, the body text verbatim. -/
def processCommonResponse (resp : Resp) : Except String (Bool × JsonVal) :=
  if resp.ok then
    match resp.jsonBody with
    | none => Except.error "JSONDecodeError"
    | some respJson =>
      match respJson with
      | JsonVal.obj fields =>
        match getKey fields "id" with
        | some newId => do
          let newSlug ← keyErr (getKey fields "slug")
          let newLink ← keyErr (getKey fields "link")
          let respInfo := [("id", newId), ("slug", newSlug), ("link", newLink)]
          let respInfo ← (match getKey fields "type" with
            | some curType =>
              if jsonEqStr curType "attachment" || jsonEqStr curType "post" then do
                let guid ← keyErr (getKey fields "guid")
                let url ← getItem guid "rendered"
                let titleObj ← keyErr (getKey fields "title")
                let title ← getItem titleObj "rendered"
                pure (respInfo ++ [("url", url), ("title", title)])
              else pure respInfo
            | none => pure respInfo)
          let respInfo ← (match getKey fields "taxonomy" with
            | some curTaxonomy => do
              let nameVal ← keyErr (getKey fields "name")
              let descVal ← keyErr (getKey fields "description")
              let respInfo := respInfo ++ [("name", nameVal), ("description", descVal)]
              if jsonEqStr curTaxonomy "category" then do
                let parentVal ← keyErr (getKey fields "parent")
                pure (respInfo ++ [("parent", parentVal)])
              else pure respInfo
            | none => pure respInfo)
          pure (true, JsonVal.obj respInfo)
        | none => pure (true, JsonVal.obj fields)
      | JsonVal.arr elems => pure (true, JsonVal.arr elems)
      | _ => pure (false, JsonVal.obj [])
  else
    Except.ok (false, JsonVal.obj
      [("errCode", JsonVal.num resp.status_code), ("errMsg", JsonVal.str resp.text)])

/-- Discriminator for the two JSON shapes processCommonResponse accepts
on a successful transport. -/
def isObjOrArr : JsonVal → Bool
  | JsonVal.obj _ => true
  | JsonVal.arr _ => true
  | _ => false

/-! ### createTaxonomy (lines 220-282) and getTaxonomySinglePage (lines 284-337) -/

/-- The request body built by createTaxonomy (lines 246-258): name always;
slug and description only when truthy (a None or empty string is
skipped); parent only for categories and only when truthy (None or zero
is skipped).  An absent dictionary key is modelled as none. -/
structure TaxonomyPostDict where
  name : String
  slug : Option String
  description : Option String
  parent : Option Nat
deriving DecidableEq, Repr

/-- Python truthiness of an optional string argument. -/
def pyTruthyStr : Option String → Bool
  | none => false
  | some s => s != ""

/-- Python truthiness of an optional integer argument. -/
def pyTruthyNat : Option Nat → Bool
  | none => false
  | some n => n != 0

/-- Lines 246-258: assemble the creation body. -/
def buildTaxonomyPostDict (name taxonomy : String) (parent : Option Nat)
    (slug description : Option String) : TaxonomyPostDict :=
  { name := name
    slug := if pyTruthyStr slug then slug else none
    description := if pyTruthyStr description then description else none
    parent := if taxonomy == "category" && pyTruthyNat parent then parent else none }

/-- Lines 260-264: the creation URL starts as the empty string and is
only replaced for the two known taxonomy kinds. -/
def createTaxonomyUrl (host taxonomy : String) : String :=
  if taxonomy == "category" then host ++ "/wp-json/wp/v2/categories"
  else if taxonomy == "post_tag" then host ++ "/wp-json/wp/v2/tags"
  else ""

/-- createTaxonomy (lines 220-282): build the body, compute the URL,
issue the POST through the transport oracle and normalize the response.
No branch rejects an unknown taxonomy kind. -/
def createTaxonomy (post : String → TaxonomyPostDict → Resp) (host name taxonomy : String)
    (parent : Option Nat) (slug description : Option String) : Except String (Bool × JsonVal) :=
  let postDict := buildTaxonomyPostDict name taxonomy parent slug description
  let url := createTaxonomyUrl host taxonomy
  processCommonResponse (post url postDict)

/-- The per_page default of line 31, the documented platform maximum. -/
def SearchTagPerPage : Nat := 100

/-- The query parameters of lines 312-316. -/
structure TaxonomyQueryParams where
  search : String
  page : Nat
  per_page : Nat
deriving DecidableEq, Repr

/-- Lines 318-322: the search URL starts as the empty string and is only
replaced for the two known taxonomy kinds. -/
def searchTaxonomyUrl (host taxonomy : String) : String :=
  if taxonomy == "category" then host ++ "/wp-json/wp/v2/categories"
  else if taxonomy == "post_tag" then host ++ "/wp-json/wp/v2/tags"
  else ""

/-- getTaxonomySinglePage (lines 284-337): default the page size
(lines 309-310), build the query, issue the GET through the transport
oracle and normalize.  No branch rejects an unknown taxonomy kind. -/
def getTaxonomySinglePage (get : String → TaxonomyQueryParams → Resp)
    (host name taxonomy : String) (curPage : Nat) (perPage : Option Nat) :
    Except String (Bool × JsonVal) :=
  let pp := perPage.getD SearchTagPerPage
  let params : TaxonomyQueryParams := ⟨name, curPage, pp⟩
  processCommonResponse (get (searchTaxonomyUrl host taxonomy) params)

/-! ### getAllTaxonomy (lines 339-387)

For the pagination logic the single-page search is abstracted into an
oracle from the page number to the outcome that getAllTaxonomy actually
inspects: the success flag together with the item list on success or the
error detail on failure. -/

/-- Outcome of one single-page fetch as consumed by getAllTaxonomy. -/
inductive PageResult where
  | ok (items : List TaxRecord)
  | err (errCode : Nat) (errMsg : String)
deriving DecidableEq, Repr

/-- Second component of the value returned by getAllTaxonomy: the
accumulated item list on success, the error detail of the first page on
failure. -/
inductive GetAllResp where
  | items (l : List TaxRecord)
  | errInfo (errCode : Nat) (errMsg : String)
deriving DecidableEq, Repr

/-- The while loop of lines 366-380, with the requested page numbers
recorded.  One iteration fetches the current page; on failure the loop
exits with the error detail discarded and nothing further accumulated
(the items of earlier iterations are kept by the callers append); on a
short page the loop exits after accumulating it; on a full page it
continues with the next page number.  The fuel argument bounds the
number of iterations; the Python loop has no such bound and diverges on
an endless run of full pages, and every theorem below supplies enough
fuel for the loop to reach its exit condition. -/
def getRestPages (fetch : Nat → PageResult) (perPage : Nat) : Nat → Nat → List Nat × List TaxRecord
  | 0, _ => ([], [])
  | fuel + 1, page =>
    match fetch page with
    | PageResult.err _ _ => ([page], [])
    | PageResult.ok items =>
      if perPage ≤ items.length then
        let r := getRestPages fetch perPage fuel (page + 1)
        (page :: r.1, items ++ r.2)
      else ([page], items)

/-- getAllTaxonomy (lines 339-387), returning the requested page numbers
alongside the pair isGetAllOk, respInfo of the source.  A failing first
page propagates as False with the error detail (lines 383-385); a
successful first page sets isGetAllOk to True once and for all
(line 359), enters the rest loop only when full (line 364), and returns
the concatenation of the first page and the loop accumulator
(lines 362, 380-382). -/
def getAllTaxonomy (fetch : Nat → PageResult) (fuel : Nat) : List Nat × Bool × GetAllResp :=
  match fetch 1 with
  | PageResult.err c m => ([1], false, GetAllResp.errInfo c m)
  | PageResult.ok firstPageRespList =>
    if SearchTagPerPage ≤ firstPageRespList.length then
      let r := getRestPages fetch SearchTagPerPage fuel 2
      (1 :: r.1, true, GetAllResp.items (firstPageRespList ++ r.2))
    else ([1], true, GetAllResp.items firstPageRespList)

/-! ### getTaxonomyIdList (lines 414-455)

The per-name effects are abstracted into two oracles: search models
searchTaxonomy (lines 389-412), returning the pair isSearhOk,
existedTaxonomy where the option also captures Python truthiness of the
found record; create models createTaxonomy restricted to the outcome the
resolver inspects, the pair isCreateOk, createdTaxonomy. -/

/-- getTaxonomyIdList (lines 414-455), instrumented with a call trace:
the second component lists, in input order, the names for which the else
branch of line 438 invoked createTaxonomy.  A name found by the search
contributes its id directly (lines 435-437); otherwise creation is
attempted and a successful creation contributes the new id
(lines 438-443); a name that neither search nor creation resolved is
logged and skipped (lines 444-452). -/
def getTaxonomyIdList (search create : String → Bool × Option TaxRecord) :
    List String → List Nat × List String
  | [] => ([], [])
  | name :: rest =>
    let r := getTaxonomyIdList search create rest
    match search name with
    | (true, some t) => (t.id :: r.1, r.2)
    | _ =>
      match create name with
      | (true, some t) => (t.id :: r.1, name :: r.2)
      | _ => (r.1, name :: r.2)

/-- The id that getTaxonomyIdList appends for one name, as a function of
the two oracle outcomes: the found id, else the created id, else none. -/
def resolvedId (search create : String → Bool × Option TaxRecord) (name : String) : Option Nat :=
  match search name with
  | (true, some t) => some t.id
  | _ =>
    match create name with
    | (true, some t) => some t.id
    | _ => none

/-- Whether the search step both succeeded and found a truthy record,
the condition of line 435 that decides against invoking creation. -/
def searchFound (search : String → Bool × Option TaxRecord) (name : String) : Bool :=
  match search name with
  | (true, some _) => true
  | _ => false

/-- Specification-side value: the k consecutive page numbers starting at
start. -/
def pagesFrom (start : Nat) : Nat → List Nat
  | 0 => []
  | k + 1 => start :: pagesFrom (start + 1) k

/-- Specification-side value: the concatenation, in page order, of the
item lists of k consecutive pages starting at start. -/
def itemsFrom (items : Nat → List TaxRecord) (start : Nat) : Nat → List TaxRecord
  | 0 => []
  | k + 1 => items start ++ itemsFrom items (start + 1) k

/-! ### Concrete fixtures used by the closed theorems -/

/-- The category record of the source examples. -/
def macRecord : TaxRecord := ⟨1374, "Mac"⟩

/-- A page oracle whose first page is exactly full and whose second page
is empty: the exact-multiple edge case of the pagination protocol. -/
def pageFetchExample : Nat → PageResult :=
  fun p => if p = 1 then PageResult.ok (List.replicate 100 macRecord) else PageResult.ok []

/-- A page oracle whose first page is exactly full and whose second page
fails. -/
def pageFetchFailAfterFull : Nat → PageResult :=
  fun p => if p = 1 then PageResult.ok (List.replicate 100 macRecord)
           else PageResult.err 500 "internal server error"

/-- A search oracle that always reports failure. -/
def searchAlwaysFail : String → Bool × Option TaxRecord := fun _ => (false, none)

/-- A creation oracle that always succeeds with the tag record of the
source examples. -/
def createAlwaysGpu : String → Bool × Option TaxRecord := fun _ => (true, some ⟨13224, "GPU"⟩)

/-! ## Theorems -/

/-- Helper: find? distributes over append, first list first. -/
theorem find?_append_eq {α : Type} (p : α → Bool) :
    ∀ (l₁ l₂ : List α),
      (l₁ ++ l₂).find? p =
        match l₁.find? p with
        | some x => some x
        | none => l₂.find? p
  | [], l₂ => by simp
  | a :: l₁, l₂ => by
    by_cases h : p a
    · simp [List.find?_cons_of_pos, h]
    · rw [List.cons_append, List.find?_cons_of_neg _ (by simpa using h),
        List.find?_cons_of_neg _ (by simpa using h), find?_append_eq p l₁ l₂]

/-- Helper: the combined result of the scan loop of findSameNameTaxonomy
is the first exact match when one exists, else the last case-insensitive
match of the scanned list, else the accumulator. -/
theorem findSameNameLoop_spec (name : String) :
    ∀ (lst : List TaxRecord) (acc : Option TaxRecord),
      (match (findSameNameLoop name (strLower name) acc lst).1 with
       | some t => some t
       | none => (findSameNameLoop name (strLower name) acc lst).2) =
      (match lst.find? (fun r => r.name == name) with
       | some r => some r
       | none =>
         match lst.reverse.find? (fun r => strLower r.name == (strLower name)) with
         | some r => some r
         | none => acc)
  | [], acc => by simp [findSameNameLoop]
  | r :: rest, acc => by
    by_cases hb : r.name == name
    · simp [findSameNameLoop, hb, List.find?_cons_of_pos]
    · by_cases hlow : strLower r.name == (strLower name)
      · have ih := findSameNameLoop_spec name rest (some r)
        rw [List.find?_cons_of_neg _ (by simpa using hb)] at *
        simp only [findSameNameLoop]
        rw [if_neg hb, if_pos hlow, ih, List.reverse_cons, find?_append_eq]
        rcases hf : rest.find? (fun r => r.name == name) with _ | x <;>
          rcases hr : rest.reverse.find? (fun r => strLower r.name == (strLower name)) with _ | y <;>
          simp [hf, hr, List.find?, hlow]
      · have ih := findSameNameLoop_spec name rest acc
        simp only [findSameNameLoop]
        rw [if_neg hb, if_neg hlow, ih, List.find?_cons_of_neg _ (by simpa using hb),
          List.reverse_cons, find?_append_eq]
        rcases hf : rest.find? (fun r => r.name == name) with _ | x <;>
          rcases hr : rest.reverse.find? (fun r => strLower r.name == (strLower name)) with _ | y <;>
          simp [hf, hr, List.find?, hlow]

/-- Claim C1: findSameNameTaxonomy returns the first candidate whose name
equals the target case-sensitively; failing that, the last candidate in
scan order whose lower-cased name equals the lower-cased target (the
scan stops at the first exact match, so when an exact match exists only
earlier candidates were scanned, and when none exists the whole list
was); failing both, none.  The two concrete source examples follow. -/
theorem findSameNameTaxonomy_spec :
    (∀ (name : String) (lst : List TaxRecord),
      findSameNameTaxonomy name lst =
        match lst.find? (fun r => r.name == name) with
        | some r => some r
        | none => lst.reverse.find? (fun r => strLower r.name == (strLower name))) ∧
    findSameNameTaxonomy "mac" [⟨1639, "Cocoa"⟩, ⟨1374, "Mac"⟩] = some ⟨1374, "Mac"⟩ ∧
    findSameNameTaxonomy "Mac" [⟨13223, "mac"⟩, ⟨1374, "Mac"⟩] = some ⟨1374, "Mac"⟩ := by
  refine ⟨fun name lst => ?_, by decide, by decide⟩
  have h := findSameNameLoop_spec name lst none
  unfold findSameNameTaxonomy
  rw [h]
  rcases hf : lst.find? (fun r => r.name == name) with _ | x <;>
    rcases hr : lst.reverse.find? (fun r => strLower r.name == (strLower name)) with _ | y <;>
    simp [hf, hr]

/-- Helper: the collapse step never drops the first character. -/
theorem collapseUnderscores_head :
    ∀ (c : Char) (l : List Char), (collapseUnderscores (c :: l)).head? = some c
  | _, [] => by simp [collapseUnderscores]
  | c1, c2 :: rest => by
    by_cases h : c1 = '_' ∧ c2 = '_'
    · rw [show collapseUnderscores (c1 :: c2 :: rest) = collapseUnderscores (c2 :: rest) from
        by simp [collapseUnderscores, h], collapseUnderscores_head c2 rest, h.1, h.2]
    · simp [collapseUnderscores, h]

/-- Helper: after the collapse step no two adjacent underscores remain. -/
theorem collapseUnderscores_noDouble :
    ∀ l : List Char, hasDoubleUnderscore (collapseUnderscores l) = false
  | [] => rfl
  | [c] => rfl
  | c1 :: c2 :: rest => by
    have ih := collapseUnderscores_noDouble (c2 :: rest)
    by_cases h : c1 = '_' ∧ c2 = '_'
    · simpa [collapseUnderscores, h] using ih
    · have hh := collapseUnderscores_head c2 rest
      rcases hc : collapseUnderscores (c2 :: rest) with _ | ⟨d, t⟩
      · simp [collapseUnderscores, h, hc, hasDoubleUnderscore]
      · have hd : d = c2 := by rw [hc] at hh; simpa using hh
        rw [hc] at ih
        have hb : (c1 == '_' && d == '_') = false := by
          rw [hd]
          by_cases h1 : c1 = '_' <;> by_cases h2 : c2 = '_' <;> simp_all
        simp [collapseUnderscores, h, hc, hasDoubleUnderscore, hb, ih]

/-- Helper: every character surviving the collapse step came from its
input. -/
theorem collapseUnderscores_mem :
    ∀ (l : List Char) (c : Char), c ∈ collapseUnderscores l → c ∈ l
  | [], c => by simp [collapseUnderscores]
  | [d], c => by simp [collapseUnderscores]
  | c1 :: c2 :: rest, c => by
    have ih := collapseUnderscores_mem (c2 :: rest) c
    by_cases h : c1 = '_' ∧ c2 = '_'
    · intro hm
      rw [show collapseUnderscores (c1 :: c2 :: rest) = collapseUnderscores (c2 :: rest) from
        by simp [collapseUnderscores, h]] at hm
      exact List.mem_cons_of_mem c1 (ih hm)
    · intro hm
      rw [show collapseUnderscores (c1 :: c2 :: rest) = c1 :: collapseUnderscores (c2 :: rest) from
        by simp [collapseUnderscores, h]] at hm
      rcases List.mem_cons.mp hm with h1 | h2
      · exact h1 ▸ List.mem_cons_self c1 (c2 :: rest)
      · exact List.mem_cons_of_mem c1 (ih h2)

/-- Helper: every character produced by the non-word substitution is a
word character. -/
theorem subNonWord_wordChars (s : List Char) :
    ∀ c ∈ subNonWord s, isWordChar c = true := by
  intro c hc
  rcases List.mem_map.mp hc with ⟨a, _, ha⟩
  rw [← ha]
  by_cases hw : isWordChar a = true
  · rw [if_pos hw]; exact hw
  · rw [if_neg hw]; decide

/-- Helper: the unfolding of generateSlug on a non-empty title. -/
theorem generateSlug_ne (title : String) (ht : ¬ title = "") :
    generateSlug title = String.mk (collapseUnderscores (subNonWord
      (removeWordList.foldl applyRemoveWord (subContraction (strLower title).data)))) := by
  unfold generateSlug
  rw [if_neg ht]

/-- Claim C4 (amended): every character of a generated slug is a letter,
digit or underscore, no two adjacent characters are both underscores,
the empty title yields the empty slug, and the documented example
evaluates as specified.  The original claim also prohibited a leading or
trailing underscore, which the counterexample refutes. -/
theorem generateSlug_charset :
    (∀ title : String,
      (∀ c ∈ (generateSlug title).data, isWordChar c = true) ∧
      hasDoubleUnderscore (generateSlug title).data = false) ∧
    generateSlug "" = "" ∧
    generateSlug "Give the PIP replacement source to the Mac to speed up the download" =
      "give_pip_replacement_source_mac_speed_up_download" := by
  refine ⟨fun title => ?_, rfl, by decide⟩
  by_cases ht : title = ""
  · subst ht
    exact ⟨by simp [generateSlug], rfl⟩
  · rw [generateSlug_ne title ht]
    generalize removeWordList.foldl applyRemoveWord (subContraction (strLower title).data) = X
    constructor
    · intro c hc
      exact subNonWord_wordChars _ c (collapseUnderscores_mem _ c hc)
    · exact collapseUnderscores_noDouble _

/-- Witness for the amended claim C4 at a concrete title and character. -/
theorem generateSlug_charset_witness :
    'm' ∈ (generateSlug "Mac").data ∧ isWordChar 'm' = true :=
  ⟨by decide, (generateSlug_charset.1 "Mac").1 'm' (by decide)⟩

/-- Counterexample for claim C4 as stated: a title wrapped in
exclamation marks yields a slug that both begins and ends with an
underscore. -/
theorem generateSlug_leading_underscore_cex :
    generateSlug "!abc!" = "_abc_" ∧
    ("_abc_".data.head? = some '_') ∧ ("_abc_".data.getLast? = some '_') := by
  refine ⟨by decide, by decide, by decide⟩

/-- Claim C5 (code bug): the contraction substitution of line 486 does
not merge the fragments around the apostrophe; its replacement string
denotes the two control characters U+0001 U+0002 because the Python
literal is not raw, so the title d o n apostrophe t collapses to a
single underscore rather than the documented dont. -/
theorem generateSlug_contraction_bug :
    subContraction (strLower (String.mk ['d', 'o', 'n', apostropheChar, 't'])).data =
      [ctrlOneChar, ctrlTwoChar] ∧
    generateSlug (String.mk ['d', 'o', 'n', apostropheChar, 't']) = "_" ∧
    "_" ≠ "dont" := by
  refine ⟨by decide, by decide, by decide⟩

/-- Claim C6: on a transport failure processCommonResponse returns
False together with exactly the two-field dictionary holding the status
code and the raw body text verbatim. -/
theorem processCommonResponse_transport_error :
    ∀ resp : Resp, resp.ok = false →
      processCommonResponse resp =
        Except.ok (false, JsonVal.obj
          [("errCode", JsonVal.num resp.status_code), ("errMsg", JsonVal.str resp.text)]) := by
  intro resp h
  unfold processCommonResponse
  rw [h]
  simp

/-- Witness for claim C6 at a concrete forbidden response. -/
theorem processCommonResponse_transport_error_witness :
    processCommonResponse ⟨403, "jwt auth invalid token", false, none⟩ =
      Except.ok (false, JsonVal.obj
        [("errCode", JsonVal.num 403), ("errMsg", JsonVal.str "jwt auth invalid token")]) :=
  processCommonResponse_transport_error ⟨403, "jwt auth invalid token", false, none⟩ rfl

/-- Claim C7 (amended): on a successful transport whose body is valid
JSON but neither an object nor a sequence, processCommonResponse returns
the explicit failure pair False, empty dictionary, distinct from the
transport-error envelope; but on a successful transport whose body is
not valid JSON, the json parse raises and that exception escapes
processCommonResponse instead of being represented as a result value. -/
theorem processCommonResponse_malformed :
    ∀ resp : Resp, resp.ok = true →
      (resp.jsonBody = none → processCommonResponse resp = Except.error "JSONDecodeError") ∧
      (∀ v, resp.jsonBody = some v → isObjOrArr v = false →
        processCommonResponse resp = Except.ok (false, JsonVal.obj [])) := by
  intro resp hok
  constructor
  · intro hb
    unfold processCommonResponse
    rw [hok, hb]
    simp
  · intro v hv hno
    unfold processCommonResponse
    rw [hok, hv]
    cases v <;>
      first
        | rfl
        | simp [isObjOrArr] at hno

/-- Counterexample for claim C7 as stated: a 200 response with an
unparsable body makes processCommonResponse raise (the error escapes)
rather than produce a result value. -/
theorem processCommonResponse_raises_cex :
    processCommonResponse ⟨200, "not json", true, none⟩ = Except.error "JSONDecodeError" := rfl

/-- Witness for the amended claim C7 at a concrete scalar-bodied
response. -/
theorem processCommonResponse_malformed_witness :
    processCommonResponse ⟨200, "7", true, some (JsonVal.num 7)⟩ =
      Except.ok (false, JsonVal.obj []) :=
  (processCommonResponse_malformed ⟨200, "7", true, some (JsonVal.num 7)⟩ rfl).2
    (JsonVal.num 7) rfl rfl

/-- Helper: closed form of the batch resolver, computed by structural
recursion over the name list: the id list keeps, in input order, each
name that the search found or the creation supplied, and the creation
trace lists exactly the names for which the search did not succeed with
a match. -/
theorem getTaxonomyIdList_eq (search create : String → Bool × Option TaxRecord) :
    ∀ l : List String,
      getTaxonomyIdList search create l =
        (l.filterMap (resolvedId search create), l.filter (fun n => !searchFound search n))
  | [] => rfl
  | name :: rest => by
    have ih := getTaxonomyIdList_eq search create rest
    rcases hs : search name with ⟨sb, so⟩
    rcases hc : create name with ⟨cb, co⟩
    rcases sb <;> rcases so with _ | t <;> rcases cb <;> rcases co with _ | u <;>
      simp [getTaxonomyIdList, ih, resolvedId, searchFound, hs, hc,
        List.filterMap_cons, List.filter_cons]

/-- Helper: a filterMap never lengthens a list. -/
theorem filterMap_length_le {α β : Type} (f : α → Option β) :
    ∀ l : List α, (l.filterMap f).length ≤ l.length
  | [] => Nat.le_refl 0
  | a :: l => by
    have ih := filterMap_length_le f l
    rcases ha : f a with _ | b <;> simp [List.filterMap_cons, ha] <;> omega

/-- Helper: a filterMap is strictly shorter than its input exactly when
the function rejects some element. -/
theorem filterMap_length_lt_iff {α β : Type} (f : α → Option β) :
    ∀ l : List α, (l.filterMap f).length < l.length ↔ ∃ x ∈ l, f x = none
  | [] => by simp
  | a :: l => by
    have ih := filterMap_length_lt_iff f l
    have hle := filterMap_length_le f l
    rcases ha : f a with _ | b
    · simp only [List.filterMap_cons, ha, List.mem_cons]
      constructor
      · intro _
        exact ⟨a, Or.inl rfl, ha⟩
      · intro _
        exact Nat.lt_succ_of_le hle
    · simp only [List.filterMap_cons, ha, List.length_cons, List.mem_cons, Nat.succ_lt_succ_iff]
      rw [ih]
      constructor
      · rintro ⟨x, hx, hfx⟩
        exact ⟨x, Or.inr hx, hfx⟩
      · rintro ⟨x, hx | hx, hfx⟩
        · rw [hx] at hfx; rw [ha] at hfx; cases hfx
        · exact ⟨x, hx, hfx⟩

/-- Claim C8: the batch resolver is total and best-effort: the returned
id list is exactly the filterMap of the per-name resolution over the
input, in input order, so its length never exceeds the input length and
is strictly smaller exactly when some name failed to resolve. -/
theorem getTaxonomyIdList_best_effort :
    ∀ (search create : String → Bool × Option TaxRecord) (nameList : List String),
      (getTaxonomyIdList search create nameList).1 =
        nameList.filterMap (resolvedId search create) ∧
      (getTaxonomyIdList search create nameList).1.length ≤ nameList.length ∧
      ((getTaxonomyIdList search create nameList).1.length < nameList.length ↔
        ∃ n ∈ nameList, resolvedId search create n = none) := by
  intro search create nameList
  rw [getTaxonomyIdList_eq search create nameList]
  exact ⟨rfl, filterMap_length_le _ _, filterMap_length_lt_iff _ _⟩

/-- Claim C3 (amended): the resolver does not distinguish a failed
search from a search that found nothing: in either case it falls through
to the creation branch, so a creation request is issued exactly for the
names whose search did not both succeed and find a record, and a name is
omitted from the id list only when its creation step also failed. -/
theorem getTaxonomyIdList_search_fail_creates :
    ∀ (search create : String → Bool × Option TaxRecord) (nameList : List String),
      getTaxonomyIdList search create nameList =
        (nameList.filterMap (resolvedId search create),
         nameList.filter (fun n => !searchFound search n)) :=
  fun search create nameList => getTaxonomyIdList_eq search create nameList

/-- Counterexample for claim C3 as stated: with a search oracle that
always reports failure and a creation oracle that succeeds, the resolver
issues the creation request (the trace records the name) and returns the
created id, instead of omitting the name without creating it. -/
theorem getTaxonomyIdList_search_fail_cex :
    getTaxonomyIdList searchAlwaysFail createAlwaysGpu ["GPU"] = ([13224], ["GPU"]) := rfl

/-- Claim C10: for any taxonomy kind other than category and post_tag,
both the creation and the single-page search compute the empty string as
their URL and still issue their request to that empty URL, with no
rejection of the unknown kind before the remote call. -/
theorem taxonomyUrl_unknown_kind :
    ∀ host taxonomy : String, taxonomy ≠ "category" → taxonomy ≠ "post_tag" →
      createTaxonomyUrl host taxonomy = "" ∧
      searchTaxonomyUrl host taxonomy = "" ∧
      (∀ (post : String → TaxonomyPostDict → Resp) (name : String) (parent : Option Nat)
        (slug description : Option String),
        createTaxonomy post host name taxonomy parent slug description =
          processCommonResponse
            (post "" (buildTaxonomyPostDict name taxonomy parent slug description))) ∧
      (∀ (get : String → TaxonomyQueryParams → Resp) (name : String) (curPage : Nat)
        (perPage : Option Nat),
        getTaxonomySinglePage get host name taxonomy curPage perPage =
          processCommonResponse (get "" ⟨name, curPage, perPage.getD SearchTagPerPage⟩)) := by
  intro host taxonomy h1 h2
  have hu : createTaxonomyUrl host taxonomy = "" := by
    unfold createTaxonomyUrl
    rw [if_neg (by simpa using h1), if_neg (by simpa using h2)]
  have hs : searchTaxonomyUrl host taxonomy = "" := by
    unfold searchTaxonomyUrl
    rw [if_neg (by simpa using h1), if_neg (by simpa using h2)]
  refine ⟨hu, hs, ?_, ?_⟩
  · intro post name parent slug description
    unfold createTaxonomy
    rw [hu]
  · intro get name curPage perPage
    unfold getTaxonomySinglePage
    rw [hs]

/-- Witness for claim C10 at the concrete unknown kind nav_menu. -/
theorem taxonomyUrl_unknown_kind_witness :
    createTaxonomyUrl "https://www.crifan.org" "nav_menu" = "" ∧
    searchTaxonomyUrl "https://www.crifan.org" "nav_menu" = "" := by
  have h := taxonomyUrl_unknown_kind "https://www.crifan.org" "nav_menu"
    (by decide) (by decide)
  exact ⟨h.1, h.2.1⟩

/-- Helper: membership in a consecutive page-number list. -/
theorem mem_pagesFrom : ∀ (k s m : Nat), m ∈ pagesFrom s k ↔ s ≤ m ∧ m < s + k
  | 0, s, m => by
    simp [pagesFrom]
  | k + 1, s, m => by
    simp [pagesFrom, mem_pagesFrom k (s + 1) m]
    omega

/-- Helper: the rest-page loop across a run of full successful pages
ending at a failing page keeps the items of the pages before the
failure, requests exactly the consecutive pages up to and including the
failing one, and discards the error detail. -/
theorem getRestPages_err_run (fetch : Nat → PageResult) (perPage : Nat)
    (items : Nat → List TaxRecord) (c : Nat) (m : String) :
    ∀ (n start fuel : Nat),
      (∀ i, i < n → fetch (start + i) = PageResult.ok (items (start + i)) ∧
        perPage ≤ (items (start + i)).length) →
      fetch (start + n) = PageResult.err c m →
      n < fuel →
      getRestPages fetch perPage fuel start =
        (pagesFrom start (n + 1), itemsFrom items start n)
  | 0, start, fuel, hfull, herr, hfuel => by
    obtain ⟨f, rfl⟩ : ∃ f, fuel = f + 1 := ⟨fuel - 1, by omega⟩
    rw [Nat.add_zero] at herr
    simp [getRestPages, herr, pagesFrom, itemsFrom]
  | n + 1, start, fuel, hfull, herr, hfuel => by
    obtain ⟨f, rfl⟩ : ∃ f, fuel = f + 1 := ⟨fuel - 1, by omega⟩
    have h0 := hfull 0 (Nat.succ_pos n)
    rw [Nat.add_zero] at h0
    have ih := getRestPages_err_run fetch perPage items c m n (start + 1) f
      (fun i hi => by
        have h := hfull (i + 1) (by omega)
        have e : start + (i + 1) = start + 1 + i := by omega
        rw [e] at h
        exact h)
      (by
        have e : start + (n + 1) = start + 1 + n := by omega
        rw [e] at herr
        exact herr)
      (by omega)
    simp [getRestPages, h0.1, h0.2, ih, pagesFrom, itemsFrom]

/-- Helper: the rest-page loop across a run of full successful pages
ending at a short successful page accumulates all of them, the short
final page included, and requests exactly the consecutive pages up to
and including the short one. -/
theorem getRestPages_short_run (fetch : Nat → PageResult) (perPage : Nat)
    (items : Nat → List TaxRecord) (lastItems : List TaxRecord) :
    ∀ (n start fuel : Nat),
      (∀ i, i < n → fetch (start + i) = PageResult.ok (items (start + i)) ∧
        perPage ≤ (items (start + i)).length) →
      fetch (start + n) = PageResult.ok lastItems →
      lastItems.length < perPage →
      n < fuel →
      getRestPages fetch perPage fuel start =
        (pagesFrom start (n + 1), itemsFrom items start n ++ lastItems)
  | 0, start, fuel, hfull, hlast, hshort, hfuel => by
    obtain ⟨f, rfl⟩ : ∃ f, fuel = f + 1 := ⟨fuel - 1, by omega⟩
    rw [Nat.add_zero] at hlast
    simp [getRestPages, hlast, pagesFrom, itemsFrom, if_neg (by omega : ¬ perPage ≤ lastItems.length)]
  | n + 1, start, fuel, hfull, hlast, hshort, hfuel => by
    obtain ⟨f, rfl⟩ : ∃ f, fuel = f + 1 := ⟨fuel - 1, by omega⟩
    have h0 := hfull 0 (Nat.succ_pos n)
    rw [Nat.add_zero] at h0
    have ih := getRestPages_short_run fetch perPage items lastItems n (start + 1) f
      (fun i hi => by
        have h := hfull (i + 1) (by omega)
        have e : start + (i + 1) = start + 1 + i := by omega
        rw [e] at h
        exact h)
      (by
        have e : start + (n + 1) = start + 1 + n := by omega
        rw [e] at hlast
        exact hlast)
      hshort
      (by omega)
    simp [getRestPages, h0.1, h0.2, ih, pagesFrom, itemsFrom]

/-- Helper: unfolding of getAllTaxonomy when the first page succeeds
full. -/
theorem getAllTaxonomy_ok_full (fetch : Nat → PageResult) (fuel : Nat)
    (firstItems : List TaxRecord) (h : fetch 1 = PageResult.ok firstItems)
    (hfull : SearchTagPerPage ≤ firstItems.length) :
    getAllTaxonomy fetch fuel =
      (1 :: (getRestPages fetch SearchTagPerPage fuel 2).1, true,
       GetAllResp.items (firstItems ++ (getRestPages fetch SearchTagPerPage fuel 2).2)) := by
  unfold getAllTaxonomy
  rw [h]
  simp [hfull]

/-- Claim C2 (amended): a failure of the first page fetch is propagated
as False with the error detail; but when the first page succeeds and a
later page fetch fails, pagination stops after the failed page and the
call still returns True together with the items accumulated from the
pages before the failure, so nothing is discarded and the failure is not
propagated. -/
theorem getAllTaxonomy_later_page_failure :
    (∀ (fetch : Nat → PageResult) (c : Nat) (m : String) (fuel : Nat),
      fetch 1 = PageResult.err c m →
      getAllTaxonomy fetch fuel = ([1], false, GetAllResp.errInfo c m)) ∧
    (∀ (fetch : Nat → PageResult) (items : Nat → List TaxRecord) (c : Nat) (m : String)
        (k fuel : Nat),
      2 ≤ k →
      (∀ p, 1 ≤ p → p < k → fetch p = PageResult.ok (items p) ∧ 100 ≤ (items p).length) →
      fetch k = PageResult.err c m →
      k ≤ fuel + 1 →
      getAllTaxonomy fetch fuel =
        (pagesFrom 1 k, true, GetAllResp.items (itemsFrom items 1 (k - 1)))) := by
  constructor
  · intro fetch c m fuel herr
    unfold getAllTaxonomy
    rw [herr]
  · intro fetch items c m k fuel hk hfull herr hfuel
    obtain ⟨k2, rfl⟩ : ∃ k2, k = k2 + 2 := ⟨k - 2, by omega⟩
    have h1 := hfull 1 (by omega) (by omega)
    have hrest := getRestPages_err_run fetch SearchTagPerPage items c m k2 2 fuel
      (fun i hi => by
        have h := hfull (2 + i) (by omega) (by omega)
        exact h)
      (by
        have e : 2 + k2 = k2 + 2 := by omega
        rw [e]
        exact herr)
      (by omega)
    rw [getAllTaxonomy_ok_full fetch fuel (items 1) h1.1 h1.2, hrest]
    simp [pagesFrom, itemsFrom]

/-- Counterexample for claim C2 as stated: with a full first page and a
failing second page, getAllTaxonomy returns True and keeps the one
hundred accumulated items instead of returning False and discarding
them. -/
theorem getAllTaxonomy_partial_kept_cex :
    getAllTaxonomy pageFetchFailAfterFull 10 =
      ([1, 2], true, GetAllResp.items (List.replicate 100 macRecord)) := rfl

/-- Witness for the amended claim C2 at the concrete oracle whose second
page fails. -/
theorem getAllTaxonomy_later_page_failure_witness :
    getAllTaxonomy pageFetchFailAfterFull 10 =
      (pagesFrom 1 2, true,
       GetAllResp.items (itemsFrom (fun _ => List.replicate 100 macRecord) 1 1)) :=
  getAllTaxonomy_later_page_failure.2 pageFetchFailAfterFull
    (fun _ => List.replicate 100 macRecord) 500 "internal server error" 2 10
    (by omega)
    (fun p h1 h2 => by
      have hp : p = 1 := by omega
      subst hp
      exact ⟨rfl, by decide⟩)
    rfl
    (by omega)

/-- Claim C9: over a fully successful paginated fetch with page size one
hundred, getAllTaxonomy requests exactly the consecutive pages from one
up to the first short page, a page after page n being requested exactly
when page n was requested and full, and returns True with the pages
concatenated in order, the short final page included; the concrete
exact-multiple instance with a full first page and an empty second page
follows. -/
theorem getAllTaxonomy_pagination :
    (∀ (fetch : Nat → PageResult) (items : Nat → List TaxRecord) (lastItems : List TaxRecord)
        (k fuel : Nat),
      1 ≤ k →
      (∀ p, 1 ≤ p → p < k → fetch p = PageResult.ok (items p) ∧ 100 ≤ (items p).length) →
      fetch k = PageResult.ok lastItems →
      lastItems.length < 100 →
      k ≤ fuel + 1 →
      getAllTaxonomy fetch fuel =
        (pagesFrom 1 k, true, GetAllResp.items (itemsFrom items 1 (k - 1) ++ lastItems)) ∧
      (∀ n, 1 ≤ n → ((n + 1) ∈ (getAllTaxonomy fetch fuel).1 ↔ n + 1 ≤ k))) ∧
    getAllTaxonomy pageFetchExample 10 =
      ([1, 2], true, GetAllResp.items (List.replicate 100 macRecord)) := by
  constructor
  · intro fetch items lastItems k fuel hk hfull hlast hshort hfuel
    have hmain : getAllTaxonomy fetch fuel =
        (pagesFrom 1 k, true, GetAllResp.items (itemsFrom items 1 (k - 1) ++ lastItems)) := by
      rcases Nat.lt_or_ge k 2 with hk2 | hk2
      · have hk1 : k = 1 := by omega
        subst hk1
        unfold getAllTaxonomy
        rw [hlast]
        simp [pagesFrom, itemsFrom, if_neg (by
          simp only [SearchTagPerPage]
          omega : ¬ SearchTagPerPage ≤ lastItems.length)]
      · obtain ⟨k2, rfl⟩ : ∃ k2, k = k2 + 2 := ⟨k - 2, by omega⟩
        have h1 := hfull 1 (by omega) (by omega)
        have hrest := getRestPages_short_run fetch SearchTagPerPage items lastItems k2 2 fuel
          (fun i hi => by
            have h := hfull (2 + i) (by omega) (by omega)
            exact h)
          (by
            have e : 2 + k2 = k2 + 2 := by omega
            rw [e]
            exact hlast)
          hshort
          (by omega)
        rw [getAllTaxonomy_ok_full fetch fuel (items 1) h1.1 h1.2, hrest]
        simp [pagesFrom, itemsFrom]
    refine ⟨hmain, fun n hn => ?_⟩
    rw [hmain]
    simp only [mem_pagesFrom]
    omega
  · rfl

/-- Witness for claim C9 at the concrete exact-multiple oracle. -/
theorem getAllTaxonomy_pagination_witness :
    getAllTaxonomy pageFetchExample 10 =
      (pagesFrom 1 2, true,
       GetAllResp.items (itemsFrom (fun _ => List.replicate 100 macRecord) 1 1 ++ [])) :=
  (getAllTaxonomy_pagination.1 pageFetchExample (fun _ => List.replicate 100 macRecord) [] 2 10
    (by omega)
    (fun p h1 h2 => by
      have hp : p = 1 := by omega
      subst hp
      exact ⟨rfl, by decide⟩)
    rfl
    (by decide)
    (by omega)).1

end CrifanWordpress
